import Mathlib

/-!
Verification of the data-handler core of the Trade-System repository
(`src/DataHandler.py`) against its natural-language specification.

The development shallowly embeds the two concrete handlers
(`HistoricCSVDataHandler` and `SimpleCSVHandler`) and the loading /
alignment pipeline (`_new_open_convert_csv_files`), and proves or refutes
the spec's testable properties about them.

Modelling conventions:
* a CSV cell is `Cell := Option Val` (`none` models a missing value / NaN);
* `pd.read_csv(path)` is modelled by a `Table` already in memory
  (a header row plus data rows) — file I/O itself is outside the model;
* `.dropna().reset_index(drop = True)` is `Table.dropna`; after it the
  native row index of a table is positional, `0, 1, …, rows.length - 1`,
  exactly as pandas' `RangeIndex` after `reset_index(drop = True)`;
* a Python generator that has finished raises `StopIteration` on every
  subsequent `next`; `advanceCursor` models `next` with an `Option`
  result (`none` = `StopIteration`, caught by the caller);
* the `MarketEvent` queue is modelled by its length (`events : Nat`),
  since the handler only ever appends one opaque marker to it;
* Python's `list[-N:]` for a non-negative `N` is `pySliceLast`.
-/

/-- A CSV field value: a string (symbols, dates) or a number.
Numeric cells are modelled over `Int`; none of the handler's operations
ever computes with a cell, it only moves rows around, so the carrier of
numeric cells is irrelevant to every property proved below. -/
inductive Val where
  | str : String → Val
  | num : Int → Val
deriving DecidableEq, Repr

/-- One CSV cell; `none` models a missing value (NaN). -/
abbrev Cell := Option Val

/-- An in-memory tabular file, as produced by `pd.read_csv`:
the resolved header names plus the data rows. -/
structure Table where
  header : List String
  rows : List (List Cell)
deriving DecidableEq, Repr

/-- `.dropna()`: drop every row with any missing field.
(`reset_index(drop = True)` afterwards makes the native index positional,
which the list representation already is.) -/
def Table.dropna (t : Table) : Table :=
  { t with rows := t.rows.filter (fun r => r.all Option.isSome) }

/-- The cleaned data rows of one instrument's table:
`pd.read_csv(...).dropna().reset_index(drop = True)` (DataHandler.py line 116). -/
def cleanedRows (t : Table) : List (List Cell) :=
  (t.dropna).rows

/-- The native value of an instrument at row-index `t` of its cleaned
table (`none` when the instrument has no native row there). -/
def nativeAt {α : Type} (rows : List α) (t : Nat) : Option α :=
  rows.get? t

/-- The native value at the latest native row-index `≤ t`:
the last element of the native index set `{0, …, rows.length - 1}`
that is `≤ t`, looked up in the table (`none` when no native index is `≤ t`). -/
def lastNativeLE {α : Type} (rows : List α) (t : Nat) : Option α :=
  (((List.range rows.length).filter (fun j => j ≤ t)).getLast?).bind
    (fun j => rows.get? j)

/-- `DataFrame.reindex(index = RangeIndex(n), method = 'pad')` on a frame
whose native index is the positional `0, …, rows.length - 1`: entry `i` of
the result is the native row at the largest native label `≤ i` — row `i`
itself when `i < rows.length`, else the last native row — and a missing
row (`none`) when no native label is `≤ i` (empty table). -/
def reindexPad {α : Type} (rows : List α) (n : Nat) : List (Option α) :=
  (List.range n).map (fun i =>
    if h : i < rows.length then some (rows.get ⟨i, h⟩) else rows.getLast?)

/-- One step of the `comb_index` accumulation in
`_new_open_convert_csv_files` (DataHandler.py lines 118-122).  The
accumulator holds the length of the `RangeIndex` it carries (`none` =
Python `None`).  NOTE: faithful to the source, where line 122 calls
`comb_index.union(self.symbol_data[s].index)` and DISCARDS the returned
index, the `some` branch leaves the accumulator unchanged. -/
def combIndexStep (tables : String → Table) (acc : Option Nat) (s : String) :
    Option Nat :=
  match acc with
  | none => some (cleanedRows (tables s)).length
  | some n => some n

/-- The `comb_index` the historic handler ends up reindexing onto: the
loop of `_new_open_convert_csv_files` folded over the symbol list. -/
def historicCombLen (symbols : List String) (tables : String → Table) :
    Option Nat :=
  symbols.foldl (combIndexStep tables) none

/-- The aligned series of one instrument after
`self.symbol_data[s].reindex(index = comb_index, method = 'pad')`
(DataHandler.py lines 128-129).  With no symbols the reindexing loop never
runs and no series exists; the `none` branch is that vacuous case. -/
def historicAligned (symbols : List String) (tables : String → Table)
    (s : String) : List (Option (List Cell)) :=
  match historicCombLen symbols tables with
  | none => []
  | some n => reindexPad (cleanedRows (tables s)) n

/-- Python `l[-N:]` for a natural `N`: the last `N` elements — except that
`-0 = 0`, so `N = 0` denotes the slice `l[0:]`, the whole list. -/
def pySliceLast {α : Type} (l : List α) (N : Nat) : List α :=
  if N = 0 then l else l.drop (l.length - N)

/-- `next(gen)` on the per-instrument bar generator, with the position
state made explicit: yield element `pos` and move on, or signal
`StopIteration` (`none`) leaving the position where it is.  A finished
Python generator raises `StopIteration` on every later `next` as well,
which this state machine reproduces. -/
def advanceCursor {α : Type} (series : List α) (pos : Nat) : Option α × Nat :=
  match series.get? pos with
  | some b => (some b, pos + 1)
  | none => (none, pos)

/-- The cursor position after `k` further `next` calls. -/
def cursorPosAfter {α : Type} (series : List α) (pos : Nat) : Nat → Nat
  | 0 => pos
  | k + 1 => (advanceCursor series (cursorPosAfter series pos k)).2

/-- The mutable state of `HistoricCSVDataHandler`, generic in the bar
type `α`: the symbol list, the per-symbol aligned series feeding each
generator (`symbol_data`, read-only after construction), the per-symbol
generator position, `latest_symbol_data`, `continue_backtest`, and the
number of `MarketEvent`s appended to the event queue. -/
structure HHandler (α : Type) where
  symbolList : List String
  data : String → List α
  cursor : String → Nat
  latest : String → List α
  continueBacktest : Bool
  events : Nat

/-- The body of the `for s in self.symbol_list` loop of
`HistoricCSVDataHandler.update_bars` (DataHandler.py lines 156-163):
`next` the symbol's generator once; on `StopIteration` set
`continue_backtest = False` and append nothing; otherwise append the bar
to that symbol's `latest_symbol_data`.  (The generator never yields
`None`, so the `if bar is not None` guard always passes.) -/
def HHandler.updateSymbol {α : Type} (h : HHandler α) (s : String) :
    HHandler α :=
  match advanceCursor (h.data s) (h.cursor s) with
  | (none, p) =>
      { h with cursor := Function.update h.cursor s p, continueBacktest := false }
  | (some b, p) =>
      { h with cursor := Function.update h.cursor s p,
               latest := Function.update h.latest s (h.latest s ++ [b]) }

/-- `HistoricCSVDataHandler.update_bars` (DataHandler.py lines 151-164):
run the loop body for every symbol, then append exactly one
`MarketEvent` to the event queue. -/
def HHandler.update_bars {α : Type} (h : HHandler α) : HHandler α :=
  { h.symbolList.foldl HHandler.updateSymbol h with
    events := (h.symbolList.foldl HHandler.updateSymbol h).events + 1 }

/-- `n` successive calls to `HistoricCSVDataHandler.update_bars`. -/
def HHandler.updateBarsN {α : Type} (h : HHandler α) : Nat → HHandler α
  | 0 => h
  | n + 1 => (h.updateBarsN n).update_bars

/-- `HistoricCSVDataHandler.get_latest_bars` (DataHandler.py lines
139-149): `self.latest_symbol_data[symbol]` raises `KeyError` exactly
when the symbol was never registered; the handler catches it, prints a
message and falls through returning Python `None` (modelled `none`);
otherwise it returns `bars_list[-N:]`. -/
def HHandler.get_latest_bars {α : Type} (h : HHandler α) (symbol : String)
    (N : Nat) : Option (List α) :=
  if symbol ∈ h.symbolList then some (pySliceLast (h.latest symbol) N)
  else none

/-- The mutable state of `SimpleCSVHandler`, generic in the bar type:
one unnamed series, one generator position, one `latest_symbol_data`
list, `continue_backtest`, and the event count. -/
structure SHandler (α : Type) where
  bars : List α
  cursor : Nat
  latest : List α
  continueBacktest : Bool
  events : Nat

/-- `SimpleCSVHandler.update_bars` (DataHandler.py lines 197-205): `next`
the single generator once; on `StopIteration` set
`continue_backtest = False`, otherwise append the bar; in either case
append exactly one `MarketEvent`. -/
def SHandler.update_bars {α : Type} (h : SHandler α) : SHandler α :=
  match advanceCursor h.bars h.cursor with
  | (none, p) =>
      { h with cursor := p, continueBacktest := false, events := h.events + 1 }
  | (some b, p) =>
      { h with cursor := p, latest := h.latest ++ [b], events := h.events + 1 }

/-- `n` successive calls to `SimpleCSVHandler.update_bars`. -/
def SHandler.updateBarsN {α : Type} (h : SHandler α) : Nat → SHandler α
  | 0 => h
  | n + 1 => (h.updateBarsN n).update_bars

/-- `SimpleCSVHandler.get_latest_bars` (DataHandler.py lines 194-195):
the supplied symbol is ignored; returns `self.latest_symbol_data[-N:]`. -/
def SHandler.get_latest_bars {α : Type} (h : SHandler α)
    (_symbol : Option String) (N : Nat) : List α :=
  pySliceLast h.latest N

/-- `SimpleCSVHandler.__init__` (DataHandler.py lines 173-188) after the
in-memory load: empty history, `continue_backtest = True`, generator at
the start of `pd.read_csv(csv).dropna().reset_index(drop = True)`.
No column validation of any kind occurs. -/
def SHandler.init (t : Table) : SHandler (List Cell) :=
  { bars := cleanedRows t, cursor := 0, latest := [],
    continueBacktest := true, events := 0 }

/-- The bar tuple yielded by `HistoricCSVDataHandler._get_new_bar`
(DataHandler.py lines 131-137):
`(symbol, b[1][0], b[1][1], …, b[1][6])` — the symbol followed by the
first seven fields of the row.  `none` models the uncaught `IndexError`
a row with fewer than seven fields would raise. -/
def mkHistoricBar (symbol : String) (row : List Cell) : Option (List Cell) :=
  match row.get? 0, row.get? 1, row.get? 2, row.get? 3,
        row.get? 4, row.get? 5, row.get? 6 with
  | some c0, some c1, some c2, some c3, some c4, some c5, some c6 =>
      some [some (Val.str symbol), c0, c1, c2, c3, c4, c5, c6]
  | _, _, _, _, _, _, _ => none

/-- The bar tuple yielded by `SimpleCSVHandler._get_new_bar`
(DataHandler.py lines 190-192):
`(b[1][0], b[1][1], …, b[1][6])` — the first seven fields of the row and
nothing else.  `none` models the uncaught `IndexError` on a short row. -/
def mkSimpleBar (row : List Cell) : Option (List Cell) :=
  match row.get? 0, row.get? 1, row.get? 2, row.get? 3,
        row.get? 4, row.get? 5, row.get? 6 with
  | some c0, some c1, some c2, some c3, some c4, some c5, some c6 =>
      some [c0, c1, c2, c3, c4, c5, c6]
  | _, _, _, _, _, _, _ => none

/-- Modelled from the spec (§4.1, §7): the minimum required columns of
the headered layout — timestamp, open, high, low, close, volume — under
the column names of the layout the code documents
(`Date,Open,High,Low,Close,Adj Close,Volume`, `timestamp ↦ Date`).
The source contains no such list; it exists here only to state the
spec's FormatError contract for comparison with the code. -/
def requiredColumns : List String :=
  ["Date", "Open", "High", "Low", "Close", "Volume"]

/-- Modelled from the spec (§4.1): whether every required column is
present after header resolution. -/
def hasRequiredColumns (header : List String) : Bool :=
  requiredColumns.all (fun c => c ∈ header)

/-- Modelled from the spec (§4.1, §7): construction as the spec
describes it — fail fast with a FormatError when required columns are
absent after header resolution, otherwise construct.  The source has no
such check; this definition exists to be compared with `SHandler.init`. -/
def initChecked (t : Table) : Except String (SHandler (List Cell)) :=
  if hasRequiredColumns t.header then Except.ok (SHandler.init t)
  else Except.error "FormatError"

/-- Modelled from the spec (§4.2): `unified_timeline` = union of every
table's native row-index set (sortedness is irrelevant to its size, so
the union is kept as a `Finset`).  Exists to be compared with the
`comb_index` the code actually builds (`historicCombLen`). -/
def specUnifiedTimeline (tables : List Table) : Finset Nat :=
  tables.foldl (fun acc t => acc ∪ Finset.range (cleanedRows t).length) ∅

/-! ### Concrete fixtures used by witnesses and counterexamples -/

/-- A tiny concrete historic handler: one registered symbol `"A"` whose
history holds one delivered bar. -/
def cHandler : HHandler Nat :=
  { symbolList := ["A"], data := fun _ => [], cursor := fun _ => 0,
    latest := fun s => if s = "A" then [7] else [],
    continueBacktest := true, events := 0 }

/-- A tiny concrete single-series handler with two delivered bars. -/
def cSimple : SHandler Nat :=
  { bars := [1, 2, 3], cursor := 0, latest := [10, 20],
    continueBacktest := true, events := 0 }

/-! ### Cursor lemmas -/

lemma advanceCursor_of_exhausted {α : Type} (series : List α) (pos : Nat)
    (h : (advanceCursor series pos).1 = none) :
    advanceCursor series pos = (none, pos) := by
  unfold advanceCursor at h ⊢
  cases hg : series.get? pos with
  | none => rfl
  | some b => rw [hg] at h; exact absurd h (by simp)

/-- C5: once `next` signals `StopIteration`, the cursor position never
moves again and every later `next` signals `StopIteration` too. -/
theorem c5_exhausted_sticky {α : Type} (series : List α) (pos : Nat)
    (h : (advanceCursor series pos).1 = none) :
    ∀ k, cursorPosAfter series pos k = pos ∧
      (advanceCursor series (cursorPosAfter series pos k)).1 = none := by
  have hstep := advanceCursor_of_exhausted series pos h
  intro k
  induction k with
  | zero => exact ⟨rfl, h⟩
  | succ k ih =>
      have hpos : cursorPosAfter series pos (k + 1) = pos := by
        show (advanceCursor series (cursorPosAfter series pos k)).2 = pos
        rw [ih.1, hstep]
      exact ⟨hpos, by rw [hpos]; exact h⟩

/-- Witness for C5 at a concrete exhausted cursor. -/
theorem c5_exhausted_sticky_witness :
    (advanceCursor ([] : List Nat) 0).1 = none ∧
      (cursorPosAfter ([] : List Nat) 0 3 = 0 ∧
        (advanceCursor ([] : List Nat) (cursorPosAfter ([] : List Nat) 0 3)).1
          = none) :=
  ⟨rfl, c5_exhausted_sticky ([] : List Nat) 0 rfl 3⟩

/-! ### Query lemmas -/

/-- C7: `get_latest_bars` on a symbol that was never registered raises a
`KeyError` that the handler catches (printing a local message) and
returns Python `None` — an absent result, never a fatal condition. -/
theorem c7_unknown_symbol_none {α : Type} (h : HHandler α) (s : String)
    (N : Nat) (hs : s ∉ h.symbolList) :
    h.get_latest_bars s N = none := by
  unfold HHandler.get_latest_bars
  exact if_neg hs

/-- Witness for C7: querying `"MSFT"` on the concrete handler that only
registered `"A"`. -/
theorem c7_unknown_symbol_none_witness :
    ("MSFT" ∉ cHandler.symbolList) ∧
      cHandler.get_latest_bars "MSFT" 1 = none :=
  ⟨by decide, c7_unknown_symbol_none cHandler "MSFT" 1 (by decide)⟩

/-- C10: with `N = 0`, Python's `-0 = 0` makes `bars_list[-N:]` the slice
`bars_list[0:]`, so both handler variants return the entire history. -/
theorem c10_zero_returns_all {α : Type} (h : HHandler α) (s : String)
    (hs : s ∈ h.symbolList) (hsim : SHandler α) (sym : Option String) :
    h.get_latest_bars s 0 = some (h.latest s) ∧
      hsim.get_latest_bars sym 0 = hsim.latest := by
  constructor
  · unfold HHandler.get_latest_bars pySliceLast
    rw [if_pos hs]
    rfl
  · rfl

/-- Witness for C10 on the concrete handlers: histories of length 1 and
2 are returned whole at `N = 0`. -/
theorem c10_zero_returns_all_witness :
    ("A" ∈ cHandler.symbolList) ∧
      cHandler.get_latest_bars "A" 0 = some (cHandler.latest "A") ∧
      cSimple.get_latest_bars none 0 = cSimple.latest :=
  ⟨by decide,
    (c10_zero_returns_all cHandler "A" (by decide) cSimple none).1,
    (c10_zero_returns_all cHandler "A" (by decide) cSimple none).2⟩

lemma pySliceLast_of_pos {α : Type} (l : List α) (N : Nat) (hN : 1 ≤ N) :
    pySliceLast l N = l.drop (l.length - N) := by
  unfold pySliceLast
  exact if_neg (by omega)

/-- C4 (amended to `N ≥ 1`): for a registered symbol and a positive
requested count, both variants return exactly the last
`min N |History|` entries — the suffix of the history, order
preserved (oldest-first). -/
theorem c4_latest_bars_suffix {α : Type} (h : HHandler α) (s : String)
    (N : Nat) (hs : s ∈ h.symbolList) (hN : 1 ≤ N) (hsim : SHandler α)
    (sym : Option String) :
    (h.get_latest_bars s N
        = some ((h.latest s).drop ((h.latest s).length - N))
      ∧ ((h.latest s).drop ((h.latest s).length - N)).length
          = min N (h.latest s).length
      ∧ List.IsSuffix ((h.latest s).drop ((h.latest s).length - N))
          (h.latest s))
    ∧ (hsim.get_latest_bars sym N
        = hsim.latest.drop (hsim.latest.length - N)
      ∧ (hsim.latest.drop (hsim.latest.length - N)).length
          = min N hsim.latest.length
      ∧ List.IsSuffix (hsim.latest.drop (hsim.latest.length - N))
          hsim.latest) := by
  refine ⟨⟨?_, ?_, ?_⟩, ?_, ?_, ?_⟩
  · unfold HHandler.get_latest_bars
    rw [if_pos hs, pySliceLast_of_pos _ _ hN]
  · rw [List.length_drop]; omega
  · exact List.drop_suffix _ _
  · unfold SHandler.get_latest_bars
    rw [pySliceLast_of_pos _ _ hN]
  · rw [List.length_drop]; omega
  · exact List.drop_suffix _ _

/-- Witness for C4 (amended): `N = 5` on the concrete handlers, whose
histories have 1 and 2 entries — all of them come back, oldest-first. -/
theorem c4_latest_bars_suffix_witness :
    ("A" ∈ cHandler.symbolList) ∧ (1 ≤ 5) ∧
      cHandler.get_latest_bars "A" 5 = some [7] ∧
      cSimple.get_latest_bars none 5 = [10, 20] :=
  ⟨by decide, by decide,
    by
      have := (c4_latest_bars_suffix cHandler "A" 5 (by decide) (by decide)
        cSimple none).1.1
      simpa using this,
    by
      have := (c4_latest_bars_suffix cHandler "A" 5 (by decide) (by decide)
        cSimple none).2.1
      simpa using this⟩

/-- Counterexample to C4 as stated (quantified over every requested
count): at `N = 0` the handler returns the whole 1-element history, not
`min 0 1 = 0` bars. -/
theorem c4_counterexample :
    (cHandler.latest "A").length = 1 ∧
      cHandler.get_latest_bars "A" 0 = some [7] ∧
      ¬ ([7].length = min 0 (cHandler.latest "A").length) := by
  refine ⟨by decide, ?_, by decide⟩
  unfold HHandler.get_latest_bars pySliceLast
  decide

/-! ### update_bars: loop-body and fold lemmas -/

lemma us_of_none {α : Type} (h : HHandler α) (s : String) (p : Nat)
    (hadv : advanceCursor (h.data s) (h.cursor s) = (none, p)) :
    h.updateSymbol s =
      { h with cursor := Function.update h.cursor s p,
               continueBacktest := false } := by
  unfold HHandler.updateSymbol
  rw [hadv]

lemma us_of_some {α : Type} (h : HHandler α) (s : String) (b : α) (p : Nat)
    (hadv : advanceCursor (h.data s) (h.cursor s) = (some b, p)) :
    h.updateSymbol s =
      { h with cursor := Function.update h.cursor s p,
               latest := Function.update h.latest s (h.latest s ++ [b]) } := by
  unfold HHandler.updateSymbol
  rw [hadv]

lemma us_data {α : Type} (h : HHandler α) (s : String) :
    (h.updateSymbol s).data = h.data := by
  cases hadv : advanceCursor (h.data s) (h.cursor s) with
  | mk b p =>
      cases b
      · rw [us_of_none h s p hadv]
      · rw [us_of_some h s _ p hadv]

lemma us_symbolList {α : Type} (h : HHandler α) (s : String) :
    (h.updateSymbol s).symbolList = h.symbolList := by
  cases hadv : advanceCursor (h.data s) (h.cursor s) with
  | mk b p =>
      cases b
      · rw [us_of_none h s p hadv]
      · rw [us_of_some h s _ p hadv]

lemma us_events {α : Type} (h : HHandler α) (s : String) :
    (h.updateSymbol s).events = h.events := by
  cases hadv : advanceCursor (h.data s) (h.cursor s) with
  | mk b p =>
      cases b
      · rw [us_of_none h s p hadv]
      · rw [us_of_some h s _ p hadv]

lemma us_cursor_ne {α : Type} (h : HHandler α) (s x : String) (hne : x ≠ s) :
    (h.updateSymbol s).cursor x = h.cursor x := by
  cases hadv : advanceCursor (h.data s) (h.cursor s) with
  | mk b p =>
      cases b
      · rw [us_of_none h s p hadv]; exact Function.update_noteq hne _ _
      · rw [us_of_some h s _ p hadv]; exact Function.update_noteq hne _ _

lemma us_latest_ne {α : Type} (h : HHandler α) (s x : String) (hne : x ≠ s) :
    (h.updateSymbol s).latest x = h.latest x := by
  cases hadv : advanceCursor (h.data s) (h.cursor s) with
  | mk b p =>
      cases b
      · rw [us_of_none h s p hadv]
      · rw [us_of_some h s _ p hadv]; exact Function.update_noteq hne _ _

lemma us_flag_false {α : Type} (h : HHandler α) (s : String)
    (hf : h.continueBacktest = false) :
    (h.updateSymbol s).continueBacktest = false := by
  cases hadv : advanceCursor (h.data s) (h.cursor s) with
  | mk b p =>
      cases b
      · rw [us_of_none h s p hadv]
      · rw [us_of_some h s _ p hadv]; exact hf

lemma fold_data {α : Type} (l : List String) :
    ∀ h : HHandler α,
      (List.foldl HHandler.updateSymbol h l).data = h.data := by
  induction l with
  | nil => intro h; rfl
  | cons a t ih => intro h; rw [List.foldl_cons, ih, us_data]

lemma fold_symbolList {α : Type} (l : List String) :
    ∀ h : HHandler α,
      (List.foldl HHandler.updateSymbol h l).symbolList = h.symbolList := by
  induction l with
  | nil => intro h; rfl
  | cons a t ih => intro h; rw [List.foldl_cons, ih, us_symbolList]

lemma fold_events {α : Type} (l : List String) :
    ∀ h : HHandler α,
      (List.foldl HHandler.updateSymbol h l).events = h.events := by
  induction l with
  | nil => intro h; rfl
  | cons a t ih => intro h; rw [List.foldl_cons, ih, us_events]

lemma fold_cursor_notmem {α : Type} (l : List String) :
    ∀ (h : HHandler α) (s : String), s ∉ l →
      (List.foldl HHandler.updateSymbol h l).cursor s = h.cursor s := by
  induction l with
  | nil => intro h s _; rfl
  | cons a t ih =>
      intro h s hs
      rw [List.foldl_cons, ih _ s (fun hm => hs (List.mem_cons_of_mem a hm)),
        us_cursor_ne h a s (fun he => hs (he ▸ List.mem_cons_self a t))]

lemma fold_latest_notmem {α : Type} (l : List String) :
    ∀ (h : HHandler α) (s : String), s ∉ l →
      (List.foldl HHandler.updateSymbol h l).latest s = h.latest s := by
  induction l with
  | nil => intro h s _; rfl
  | cons a t ih =>
      intro h s hs
      rw [List.foldl_cons, ih _ s (fun hm => hs (List.mem_cons_of_mem a hm)),
        us_latest_ne h a s (fun he => hs (he ▸ List.mem_cons_self a t))]

lemma fold_flag_false {α : Type} (l : List String) :
    ∀ h : HHandler α, h.continueBacktest = false →
      (List.foldl HHandler.updateSymbol h l).continueBacktest = false := by
  induction l with
  | nil => intro h hf; exact hf
  | cons a t ih => intro h hf; rw [List.foldl_cons]; exact ih _ (us_flag_false h a hf)

lemma fold_cursor_mem {α : Type} (l : List String) :
    ∀ (h : HHandler α) (s : String), l.Nodup → s ∈ l →
      (List.foldl HHandler.updateSymbol h l).cursor s
        = (advanceCursor (h.data s) (h.cursor s)).2 := by
  induction l with
  | nil => intro h s _ hs; exact absurd hs (List.not_mem_nil s)
  | cons a t ih =>
      intro h s hnd hs
      rw [List.foldl_cons]
      by_cases hsa : s = a
      · subst hsa
        have hnott : s ∉ t := (List.nodup_cons.mp hnd).1
        rw [fold_cursor_notmem t _ s hnott]
        cases hadv : advanceCursor (h.data s) (h.cursor s) with
        | mk b p =>
            cases b
            · rw [us_of_none h s p hadv]
              exact Function.update_same s p h.cursor
            · rw [us_of_some h s _ p hadv]
              exact Function.update_same s p h.cursor
      · have hst : s ∈ t := (List.mem_cons.mp hs).resolve_left hsa
        rw [ih _ s (List.nodup_cons.mp hnd).2 hst, us_data,
          us_cursor_ne h a s hsa]

lemma fold_latest_mem_none {α : Type} (l : List String) :
    ∀ (h : HHandler α) (s : String), l.Nodup → s ∈ l →
      (advanceCursor (h.data s) (h.cursor s)).1 = none →
      (List.foldl HHandler.updateSymbol h l).latest s = h.latest s ∧
        (List.foldl HHandler.updateSymbol h l).continueBacktest = false := by
  induction l with
  | nil => intro h s _ hs; exact absurd hs (List.not_mem_nil s)
  | cons a t ih =>
      intro h s hnd hs hex
      have hadv := advanceCursor_of_exhausted (h.data s) (h.cursor s) hex
      rw [List.foldl_cons]
      by_cases hsa : s = a
      · subst hsa
        have hnott : s ∉ t := (List.nodup_cons.mp hnd).1
        rw [us_of_none h s _ hadv]
        constructor
        · rw [fold_latest_notmem t _ s hnott]
        · exact fold_flag_false t _ rfl
      · have hst : s ∈ t := (List.mem_cons.mp hs).resolve_left hsa
        have hdat : (h.updateSymbol a).data s = h.data s := by rw [us_data]
        have hcur : (h.updateSymbol a).cursor s = h.cursor s :=
          us_cursor_ne h a s hsa
        have hex2 : (advanceCursor ((h.updateSymbol a).data s)
            ((h.updateSymbol a).cursor s)).1 = none := by
          rw [hdat, hcur, hadv]
        have := ih (h.updateSymbol a) s (List.nodup_cons.mp hnd).2 hst hex2
        rw [us_latest_ne h a s hsa] at this
        exact this

lemma fold_latest_mem_some {α : Type} (l : List String) :
    ∀ (h : HHandler α) (s : String) (b : α), l.Nodup → s ∈ l →
      (advanceCursor (h.data s) (h.cursor s)).1 = some b →
      (List.foldl HHandler.updateSymbol h l).latest s = h.latest s ++ [b] := by
  induction l with
  | nil => intro h s b _ hs; exact absurd hs (List.not_mem_nil s)
  | cons a t ih =>
      intro h s b hnd hs hsome
      have hadv : advanceCursor (h.data s) (h.cursor s)
          = (some b, (advanceCursor (h.data s) (h.cursor s)).2) := by
        cases hav : advanceCursor (h.data s) (h.cursor s) with
        | mk x p => rw [hav] at hsome; cases hsome; rfl
      rw [List.foldl_cons]
      by_cases hsa : s = a
      · subst hsa
        have hnott : s ∉ t := (List.nodup_cons.mp hnd).1
        rw [fold_latest_notmem t _ s hnott, us_of_some h s b _ hadv]
        exact Function.update_same s _ h.latest
      · have hst : s ∈ t := (List.mem_cons.mp hs).resolve_left hsa
        have hsome2 : (advanceCursor ((h.updateSymbol a).data s)
            ((h.updateSymbol a).cursor s)).1 = some b := by
          rw [us_data, us_cursor_ne h a s hsa, hsome]
        have := ih (h.updateSymbol a) s b (List.nodup_cons.mp hnd).2 hst hsome2
        rw [us_latest_ne h a s hsa] at this
        exact this

/-! ### C3: one advance per instrument per call, one notification per call -/

/-- A concrete historic handler with two registered symbols, `"A"` with
two aligned bars and `"B"` with one, both cursors at the start. -/
def cHandler2 : HHandler Nat :=
  { symbolList := ["A", "B"],
    data := fun s => if s = "A" then [1, 2] else if s = "B" then [5] else [],
    cursor := fun _ => 0, latest := fun _ => [],
    continueBacktest := true, events := 0 }

lemma sus_of_none {α : Type} (h : SHandler α) (p : Nat)
    (hadv : advanceCursor h.bars h.cursor = (none, p)) :
    h.update_bars =
      { h with cursor := p, continueBacktest := false,
               events := h.events + 1 } := by
  unfold SHandler.update_bars
  rw [hadv]

lemma sus_of_some {α : Type} (h : SHandler α) (b : α) (p : Nat)
    (hadv : advanceCursor h.bars h.cursor = (some b, p)) :
    h.update_bars =
      { h with cursor := p, latest := h.latest ++ [b],
               events := h.events + 1 } := by
  unfold SHandler.update_bars
  rw [hadv]

/-- C3: one call to `update_bars`, in either variant, advances every
registered instrument's cursor exactly once; an exhausted cursor flips
`continue_backtest` to `false` and appends nothing, a live one appends
its bar to that instrument's history; and exactly one `MarketEvent` is
appended per call, not one per instrument. -/
theorem c3_update_bars {α : Type} (h : HHandler α) (s : String)
    (hnd : h.symbolList.Nodup) (hs : s ∈ h.symbolList) (hsim : SHandler α) :
    (h.update_bars.events = h.events + 1
      ∧ h.update_bars.cursor s = (advanceCursor (h.data s) (h.cursor s)).2
      ∧ ((advanceCursor (h.data s) (h.cursor s)).1 = none →
          h.update_bars.continueBacktest = false
            ∧ h.update_bars.latest s = h.latest s)
      ∧ (∀ b, (advanceCursor (h.data s) (h.cursor s)).1 = some b →
          h.update_bars.latest s = h.latest s ++ [b]))
    ∧ (hsim.update_bars.events = hsim.events + 1
      ∧ hsim.update_bars.cursor = (advanceCursor hsim.bars hsim.cursor).2
      ∧ ((advanceCursor hsim.bars hsim.cursor).1 = none →
          hsim.update_bars.continueBacktest = false
            ∧ hsim.update_bars.latest = hsim.latest)
      ∧ (∀ b, (advanceCursor hsim.bars hsim.cursor).1 = some b →
          hsim.update_bars.latest = hsim.latest ++ [b])) := by
  constructor
  · refine ⟨?_, ?_, ?_, ?_⟩
    · show (h.symbolList.foldl HHandler.updateSymbol h).events + 1
        = h.events + 1
      rw [fold_events]
    · exact fold_cursor_mem h.symbolList h s hnd hs
    · intro hex
      have := fold_latest_mem_none h.symbolList h s hnd hs hex
      exact ⟨this.2, this.1⟩
    · intro b hb
      exact fold_latest_mem_some h.symbolList h s b hnd hs hb
  · cases hadv : advanceCursor hsim.bars hsim.cursor with
    | mk b p =>
        cases b
        · rw [sus_of_none hsim p hadv]
          refine ⟨rfl, rfl, fun _ => ⟨rfl, rfl⟩, fun b hb => ?_⟩
          exact absurd hb (by simp)
        · rw [sus_of_some hsim _ p hadv]
          refine ⟨rfl, rfl, fun hne => absurd hne (by simp), fun b hb => ?_⟩
          have : _ = b := Option.some.inj hb
          rw [this]

/-- Witness for C3 on the concrete handlers. -/
theorem c3_update_bars_witness :
    cHandler2.symbolList.Nodup ∧ "A" ∈ cHandler2.symbolList ∧
      cHandler2.update_bars.events = cHandler2.events + 1 ∧
      cHandler2.update_bars.cursor "A" = 1 ∧
      cSimple.update_bars.events = cSimple.events + 1 :=
  ⟨by decide, by decide,
    (c3_update_bars cHandler2 "A" (by decide) (by decide) cSimple).1.1,
    by
      have := (c3_update_bars cHandler2 "A" (by decide) (by decide)
        cSimple).1.2.1
      rw [this]; decide,
    (c3_update_bars cHandler2 "A" (by decide) (by decide) cSimple).2.1⟩

/-! ### C6: histories only ever grow, by at most one bar per call -/

lemma update_bars_latest_cases {α : Type} (h : HHandler α) (s : String)
    (hnd : h.symbolList.Nodup) :
    h.update_bars.latest s = h.latest s
      ∨ ∃ b, h.update_bars.latest s = h.latest s ++ [b] := by
  by_cases hmem : s ∈ h.symbolList
  · cases hadv : (advanceCursor (h.data s) (h.cursor s)).1 with
    | none =>
        exact Or.inl (fold_latest_mem_none h.symbolList h s hnd hmem hadv).1
    | some b =>
        exact Or.inr ⟨b, fold_latest_mem_some h.symbolList h s b hnd hmem hadv⟩
  · exact Or.inl (fold_latest_notmem h.symbolList h s hmem)

lemma s_update_bars_latest_cases {α : Type} (h : SHandler α) :
    h.update_bars.latest = h.latest
      ∨ ∃ b, h.update_bars.latest = h.latest ++ [b] := by
  cases hadv : advanceCursor h.bars h.cursor with
  | mk b p =>
      cases b
      · rw [sus_of_none h p hadv]; exact Or.inl rfl
      · rw [sus_of_some h _ p hadv]; exact Or.inr ⟨_, rfl⟩

lemma update_bars_symbolList {α : Type} (h : HHandler α) :
    h.update_bars.symbolList = h.symbolList := by
  show (h.symbolList.foldl HHandler.updateSymbol h).symbolList = h.symbolList
  rw [fold_symbolList]

lemma updateBarsN_symbolList {α : Type} (h : HHandler α) (n : Nat) :
    (h.updateBarsN n).symbolList = h.symbolList := by
  induction n with
  | zero => rfl
  | succ n ih =>
      show (h.updateBarsN n).update_bars.symbolList = h.symbolList
      rw [update_bars_symbolList, ih]

/-- C6: per instrument, one more call to `update_bars` leaves the
history a prefix of the new one (never shrunk, never reordered), with a
non-decreasing length that grows by at most one — in both variants. -/
theorem c6_history_monotone {α : Type} (h : HHandler α) (s : String)
    (n : Nat) (hnd : h.symbolList.Nodup) (hsim : SHandler α) :
    (((h.updateBarsN n).latest s) <+: ((h.updateBarsN (n + 1)).latest s)
      ∧ ((h.updateBarsN n).latest s).length
          ≤ ((h.updateBarsN (n + 1)).latest s).length
      ∧ ((h.updateBarsN (n + 1)).latest s).length
          ≤ ((h.updateBarsN n).latest s).length + 1)
    ∧ (((hsim.updateBarsN n).latest) <+: ((hsim.updateBarsN (n + 1)).latest)
      ∧ ((hsim.updateBarsN n).latest).length
          ≤ ((hsim.updateBarsN (n + 1)).latest).length
      ∧ ((hsim.updateBarsN (n + 1)).latest).length
          ≤ ((hsim.updateBarsN n).latest).length + 1) := by
  constructor
  · have hnd' : (h.updateBarsN n).symbolList.Nodup := by
      rw [updateBarsN_symbolList]; exact hnd
    have hstep : (h.updateBarsN (n + 1)).latest s
        = (h.updateBarsN n).update_bars.latest s := rfl
    cases update_bars_latest_cases (h.updateBarsN n) s hnd' with
    | inl heq =>
        rw [hstep, heq]
        exact ⟨⟨[], List.append_nil _⟩, le_refl _, Nat.le_succ _⟩
    | inr hex =>
        obtain ⟨b, hb⟩ := hex
        rw [hstep, hb]
        refine ⟨⟨[b], rfl⟩, ?_, ?_⟩ <;>
          simp [List.length_append]
  · have hstep : (hsim.updateBarsN (n + 1)).latest
        = (hsim.updateBarsN n).update_bars.latest := rfl
    cases s_update_bars_latest_cases (hsim.updateBarsN n) with
    | inl heq =>
        rw [hstep, heq]
        exact ⟨⟨[], List.append_nil _⟩, le_refl _, Nat.le_succ _⟩
    | inr hex =>
        obtain ⟨b, hb⟩ := hex
        rw [hstep, hb]
        refine ⟨⟨[b], rfl⟩, ?_, ?_⟩ <;>
          simp [List.length_append]

/-- Witness for C6 at `n = 1` on the concrete handlers. -/
theorem c6_history_monotone_witness :
    cHandler2.symbolList.Nodup ∧
      ((cHandler2.updateBarsN 1).latest "A")
          <+: ((cHandler2.updateBarsN 2).latest "A") ∧
      ((cSimple.updateBarsN 2).latest).length
        ≤ ((cSimple.updateBarsN 1).latest).length + 1 :=
  ⟨by decide,
    (c6_history_monotone cHandler2 "A" 1 (by decide) cSimple).1.1,
    (c6_history_monotone cHandler2 "A" 1 (by decide) cSimple).2.2.2⟩

/-! ### C2: forward-fill semantics of the reindex step -/

lemma reindexPad_get? {α : Type} (rows : List α) (n t : Nat) (ht : t < n) :
    (reindexPad rows n).get? t
      = some (if h : t < rows.length then some (rows.get ⟨t, h⟩)
              else rows.getLast?) := by
  unfold reindexPad
  rw [List.get?_map, List.get?_eq_getElem?, List.getElem?_range ht]
  rfl

lemma lastNativeLE_of_ge {α : Type} (rows : List α) (t : Nat)
    (h : rows.length ≤ t) :
    lastNativeLE rows t = rows.getLast? := by
  unfold lastNativeLE
  have hfil : (List.range rows.length).filter (fun j => decide (j ≤ t))
      = List.range rows.length := by
    apply List.filter_eq_self.mpr
    intro j hj
    have hjlt := List.mem_range.mp hj
    exact decide_eq_true (by omega)
  rw [hfil]
  cases hrows : rows.length with
  | zero =>
      have hnil : rows = [] := List.length_eq_zero.mp hrows
      subst hnil
      rfl
  | succ m =>
      rw [List.range_succ, List.getLast?_concat]
      show rows.get? m = rows.getLast?
      rw [List.getLast?_eq_get?, hrows]
      norm_num

/-- C2: for every registered instrument and every position `t` of the
index the handler reindexes onto, the aligned series holds the
instrument's native row at `t` when one exists, and otherwise the native
row at the latest native index `≤ t` (forward fill). -/
theorem c2_forward_fill (symbols : List String) (tables : String → Table)
    (s : String) (hs : s ∈ symbols) (n t : Nat)
    (hn : historicCombLen symbols tables = some n) (ht : t < n) :
    (∀ r, nativeAt (cleanedRows (tables s)) t = some r →
        (historicAligned symbols tables s).get? t = some (some r))
    ∧ (nativeAt (cleanedRows (tables s)) t = none →
        (historicAligned symbols tables s).get? t
          = some (lastNativeLE (cleanedRows (tables s)) t)) := by
  have haligned : historicAligned symbols tables s
      = reindexPad (cleanedRows (tables s)) n := by
    unfold historicAligned
    rw [hn]
  constructor
  · intro r hr
    have hr' : (cleanedRows (tables s)).get? t = some r := hr
    have hlt : t < (cleanedRows (tables s)).length := by
      by_contra hge
      rw [List.get?_eq_none.mpr (by omega)] at hr'
      exact Option.noConfusion hr'
    rw [haligned, reindexPad_get? _ _ _ ht, dif_pos hlt]
    have hget : (cleanedRows (tables s)).get ⟨t, hlt⟩ = r := by
      have hg : (cleanedRows (tables s)).get? t
          = some ((cleanedRows (tables s)).get ⟨t, hlt⟩) :=
        List.get?_eq_get hlt
      rw [hr'] at hg
      exact (Option.some.inj hg).symm
    rw [hget]
  · intro hnone
    have hge : (cleanedRows (tables s)).length ≤ t :=
      List.get?_eq_none.mp hnone
    rw [haligned, reindexPad_get? _ _ _ ht, dif_neg (by omega),
      lastNativeLE_of_ge _ _ hge]

/-! ### Concrete tables for the alignment claims -/

/-- The Yahoo-format header the code documents (DataHandler.py line 111). -/
def yahooHeader : List String :=
  ["Date", "Open", "High", "Low", "Close", "Adj Close", "Volume"]

/-- Concrete instrument table with three clean rows. -/
def tThree : Table :=
  { header := yahooHeader,
    rows := [[some (Val.num 10)], [some (Val.num 11)], [some (Val.num 12)]] }

/-- Concrete instrument table with two clean rows. -/
def tTwo : Table :=
  { header := yahooHeader,
    rows := [[some (Val.num 20)], [some (Val.num 21)]] }

/-- Concrete instrument table with one clean row. -/
def tOne : Table :=
  { header := yahooHeader, rows := [[some (Val.num 30)]] }

/-- Table assignment for the C2 witness: `"A"` has three rows (so the
code's `comb_index` has three entries), `"B"` only two. -/
def cTables : String → Table := fun s => if s = "A" then tThree else tTwo

/-- Witness for C2: at position 2 the instrument `"B"` has no native
row, and its aligned series holds the forward-filled value — `"B"`'s
native row at the latest native index `≤ 2`, which is its row 1. -/
theorem c2_forward_fill_witness :
    ("B" ∈ ["A", "B"]) ∧
      historicCombLen ["A", "B"] cTables = some 3 ∧ 2 < 3 ∧
      nativeAt (cleanedRows (cTables "B")) 2 = none ∧
      (historicAligned ["A", "B"] cTables "B").get? 2
        = some (lastNativeLE (cleanedRows (cTables "B")) 2) ∧
      lastNativeLE (cleanedRows (cTables "B")) 2 = some [some (Val.num 21)] :=
  ⟨by decide, by decide, by decide, by decide,
    (c2_forward_fill ["A", "B"] cTables "B" (by decide) 3 2 (by decide)
      (by decide)).2 (by decide),
    by decide⟩

/-! ### C1: the `comb_index` the code builds vs the spec's sorted union -/

/-- Table assignment exhibiting the discarded `Index.union`: the first
symbol has one clean row, the second has two. -/
def cTablesBug : String → Table := fun s => if s = "A" then tOne else tTwo

/-- C1, evaluated at the failing input: because line 122 of
DataHandler.py calls `comb_index.union(...)` without keeping the result,
the handler's `comb_index` is the FIRST symbol's index `{0}` (length 1)
instead of the union `{0, 1}` (size 2), so the second symbol's aligned
series has 1 entry where the claim requires `|unified_timeline| = 2`. -/
theorem c1_union_discarded :
    historicCombLen ["A", "B"] cTablesBug = some 1 ∧
      (specUnifiedTimeline [cTablesBug "A", cTablesBug "B"]).card = 2 ∧
      (historicAligned ["A", "B"] cTablesBug "B").length = 1 ∧
      ¬ ((historicAligned ["A", "B"] cTablesBug "B").length
          = (specUnifiedTimeline [cTablesBug "A", cTablesBug "B"]).card) := by
  refine ⟨by decide, by decide, ?_, ?_⟩ <;> decide

/-! ### C8: no FormatError exists at construction -/

/-- A table whose header offers none of the required columns. -/
def badTable : Table :=
  { header := ["Foo", "Bar"],
    rows := [[some (Val.num 1), some (Val.num 2)]] }

/-- Counterexample to C8 as stated: on a file missing every required
column, the code's construction completes normally — empty history,
`continue_backtest = True`, the generator positioned at the start — and
raises nothing, while the construction the spec describes would have
failed with a FormatError. -/
theorem c8_counterexample :
    hasRequiredColumns badTable.header = false ∧
      SHandler.init badTable =
        { bars := [[some (Val.num 1), some (Val.num 2)]], cursor := 0,
          latest := [], continueBacktest := true, events := 0 } ∧
      initChecked badTable = Except.error "FormatError" := by
  refine ⟨by decide, rfl, rfl⟩

/-- C8 (amended): construction performs no column validation at all.
For every table whose required columns are absent, the spec-modelled
checked construction fails with a FormatError, but the code's
construction succeeds as if nothing were wrong: normal initial state,
alive backtest flag, the cleaned rows loaded. -/
theorem c8_no_format_error (t : Table)
    (hbad : hasRequiredColumns t.header = false) :
    initChecked t = Except.error "FormatError" ∧
      (SHandler.init t).bars = cleanedRows t ∧
      (SHandler.init t).latest = [] ∧
      (SHandler.init t).continueBacktest = true := by
  refine ⟨?_, rfl, rfl, rfl⟩
  unfold initChecked
  rw [hbad]
  rfl

/-- Witness for C8 (amended) at the concrete malformed table. -/
theorem c8_no_format_error_witness :
    hasRequiredColumns badTable.header = false ∧
      initChecked badTable = Except.error "FormatError" ∧
      (SHandler.init badTable).continueBacktest = true :=
  ⟨by decide, (c8_no_format_error badTable (by decide)).1,
    (c8_no_format_error badTable (by decide)).2.2.2⟩

/-! ### C9: which bars carry the instrument identifier -/

/-- Whether a cell holds a string value (the only way an instrument
identifier could appear inside a bar). -/
def isStrCell : Cell → Bool
  | some (Val.str _) => true
  | _ => false

/-- C9 (amended): the multi-symbol handler's generator attaches the
instrument identifier as the first component of every bar it yields; the
single-symbol handler's generator yields the same seven row fields with
no identifier attached — its bar is exactly the historic bar's tail. -/
theorem c9_bar_symbol (symbol : String) (row : List Cell) (bar : List Cell)
    (hbar : mkHistoricBar symbol row = some bar) :
    bar.head? = some (some (Val.str symbol))
      ∧ mkSimpleBar row = some bar.tail := by
  unfold mkHistoricBar at hbar
  split at hbar
  · rename_i c0 c1 c2 c3 c4 c5 c6 h0 h1 h2 h3 h4 h5 h6
    injection hbar with hb
    subst hb
    refine ⟨rfl, ?_⟩
    unfold mkSimpleBar
    rw [h0, h1, h2, h3, h4, h5, h6]
    rfl
  · exact Option.noConfusion hbar

/-- A concrete seven-field numeric row. -/
def cRow : List Cell :=
  [some (Val.num 1), some (Val.num 2), some (Val.num 3), some (Val.num 4),
   some (Val.num 5), some (Val.num 6), some (Val.num 7)]

/-- Witness for C9 (amended) at the concrete row. -/
theorem c9_bar_symbol_witness :
    mkHistoricBar "AAPL" cRow = some (some (Val.str "AAPL") :: cRow) ∧
      (some (Val.str "AAPL") :: cRow).head? = some (some (Val.str "AAPL")) ∧
      mkSimpleBar cRow = some (some (Val.str "AAPL") :: cRow).tail :=
  ⟨by decide,
    (c9_bar_symbol "AAPL" cRow _ (by decide)).1,
    (c9_bar_symbol "AAPL" cRow _ (by decide)).2⟩

/-- Counterexample to C9 as stated: for the same concrete row, the
single-symbol handler's generator yields a bar that is just the seven
row fields — it contains no string component whatsoever, hence no
instrument identifier — while the historic generator's bar for that row
does carry one. -/
theorem c9_counterexample :
    mkSimpleBar cRow = some cRow ∧
      cRow.all (fun c => !(isStrCell c)) = true ∧
      mkHistoricBar "AAPL" cRow = some (some (Val.str "AAPL") :: cRow) := by
  refine ⟨by decide, by decide, by decide⟩
